import Mathlib

/-!
Verification development for the similarity-linking engine in
`src/data_sources/zillow/simScore.py`.

The engine normalizes raw attribute maps coming from a graph store into typed
records (`PropertyContainer.__init__`, subclasses `ZPFG` for zillow sale
listings and `APFG` for airbnb rentals), scores record pairs with weighted
similarity formulas (`num_sim`, cosine set similarity, the `compare` /
`zillowCompare` / `airbnbCompare` methods), enumerates candidate pairs
(`itertools.combinations` / `itertools.product`) and materializes
threshold-filtered bidirectional edges (`connect_nodes`).

Numeric attributes are modelled as rationals (Python ints/floats under exact
arithmetic) and composite scores as reals, since the cosine similarity of the
spec involves a square root.  Python `None` is modelled by `Option.none` /
`PyVal.vNull`; exceptions raised by the Python code are modelled by `Except`.
-/

/-- Python runtime values that can appear in a raw attribute mapping handed to
`PropertyContainer.__init__`: `None`, ints, floats, strings, and collections
of strings (the shapes produced by the store queries in `simScore.py`). -/
inductive PyVal where
  | vNull
  | vInt (n : ℤ)
  | vFloat (q : ℚ)
  | vStr (s : String)
  | vList (xs : List String)
deriving DecidableEq

/-- The kinds of Python exceptions the modelled code can raise. -/
inductive PyErr where
  | valueError
  | typeError
  | attributeError
  | indexError
deriving DecidableEq

/-- Whether an `Except` computation succeeded. -/
def isOkE {ε α : Type} : Except ε α → Bool
  | .ok _ => true
  | .error _ => false

/-- Split a character list at every occurrence of `sep`, like Python
`str.split` with an explicit separator. -/
def splitOnChar (sep : Char) : List Char → List (List Char)
  | [] => [[]]
  | c :: rest =>
    let r := splitOnChar sep rest
    if c = sep then [] :: r
    else
      match r with
      | [] => [[c]]
      | h :: t => (c :: h) :: t

/-- Drop leading and trailing whitespace, like Python `str.strip`. -/
def trimChars (cs : List Char) : List Char :=
  ((cs.dropWhile Char.isWhitespace).reverse.dropWhile Char.isWhitespace).reverse

/-- Key normalization of `PropertyContainer.__init__`:
`actual_key = k.split('.')[1] if '.' in k else k` (`'p.price' -> 'price'`). -/
def actualKey (k : String) : String :=
  if k.toList.contains '.' then String.mk ((splitOnChar '.' k.toList).getD 1 []) else k

/-- Parse a nonempty all-digit character list into a natural number, as Python
`int`/`float` do for the digit part of a numeric string. -/
def digitsToNat? (cs : List Char) : Option ℕ :=
  if cs ≠ [] ∧ cs.all (fun c => c.isDigit) then
    some (cs.foldl (fun n c => 10 * n + (c.toNat - 48)) 0)
  else none

/-- Python `int(s)` on a string: optional sign followed by digits; anything
else raises `ValueError` (modelled as `none`).  Python also strips surrounding
whitespace, modelled by `String.trim`. -/
def pyStrToInt? (s : String) : Option ℤ :=
  match trimChars s.toList with
  | '-' :: rest => (digitsToNat? rest).map (fun n => -(n : ℤ))
  | '+' :: rest => (digitsToNat? rest).map (fun n => (n : ℤ))
  | cs => (digitsToNat? cs).map (fun n => (n : ℤ))

/-- Decimal digit string (with optional fractional part) to an exact rational,
the shape of numeric strings Python `float` accepts in this data set. -/
def decimalToRat? (cs : List Char) : Option ℚ :=
  match splitOnChar '.' cs with
  | [intPart] => (digitsToNat? intPart).map (fun n => (n : ℚ))
  | [intPart, fracPart] =>
    if intPart = [] ∧ fracPart = [] then none
    else
      match (if intPart = [] then some 0 else digitsToNat? intPart),
            (if fracPart = [] then some 0 else digitsToNat? fracPart) with
      | some a, some b => some ((a : ℚ) + (b : ℚ) / (10 : ℚ) ^ fracPart.length)
      | _, _ => none
  | _ => none

/-- Python `float(s)` on a string: optional sign and a plain decimal literal
(scientific notation and `inf`/`nan` never occur in the store payloads and are
not modelled). -/
def pyStrToFloat? (s : String) : Option ℚ :=
  match trimChars s.toList with
  | '-' :: rest => (decimalToRat? rest).map Neg.neg
  | '+' :: rest => decimalToRat? rest
  | cs => decimalToRat? cs

/-- Python `int(v)` for the non-`None` values of `PyVal`: ints pass through,
floats truncate toward zero, strings are parsed, and collections raise
`TypeError`. -/
def coerceInt : PyVal → Except PyErr ℤ
  | .vNull => .error .typeError
  | .vInt n => .ok n
  | .vFloat q => .ok (if 0 ≤ q then ⌊q⌋ else ⌈q⌉)
  | .vStr s =>
    match pyStrToInt? s with
    | some n => .ok n
    | none => .error .valueError
  | .vList _ => .error .typeError

/-- Python `float(v)` for the non-`None` values of `PyVal`. -/
def coerceFloat : PyVal → Except PyErr ℚ
  | .vNull => .error .typeError
  | .vInt n => .ok (n : ℚ)
  | .vFloat q => .ok q
  | .vStr s =>
    match pyStrToFloat? s with
    | some q => .ok q
    | none => .error .valueError
  | .vList _ => .error .typeError

/-- Drop leading space characters. -/
def skipSpaces : List Char → List Char
  | ' ' :: rest => skipSpaces rest
  | cs => cs

/-- Scan up to the next single-quote character, returning the characters
before it and the characters after it. -/
def splitAtQuote : List Char → Option (List Char × List Char)
  | [] => none
  | c :: rest =>
    if c = '\x27' then some ([], rest)
    else (splitAtQuote rest).map (fun p => (c :: p.1, p.2))

/-- Parse a comma-separated sequence of single-quoted strings (the inside of a
serialized Python list such as `['San Diego']`).  The fuel argument bounds the
recursion by the input length. -/
def parseItems : ℕ → List Char → Option (List String)
  | 0, _ => none
  | fuel + 1, cs0 =>
    match skipSpaces cs0 with
    | '\x27' :: rest =>
      match splitAtQuote rest with
      | none => none
      | some (content, after) =>
        match skipSpaces after with
        | [] => some [String.mk content]
        | ',' :: more => (parseItems fuel more).map (fun xs => String.mk content :: xs)
        | _ => none
    | _ => none

/-- Model of `ast.literal_eval` as used on the `neighborhood` attribute:
the store serializes lists of neighborhood names (e.g. `"['San Diego']"`), so
the model parses exactly string-typed serialized lists of single-quoted
strings; any other string fails to parse (Python raises `ValueError` /
`SyntaxError` for non-literals such as a bare `"Downtown"`). -/
def pyLiteralEvalList? (s : String) : Option (List String) :=
  match trimChars s.toList with
  | '[' :: rest =>
    if rest ≠ [] ∧ rest.getLast? = some ']' then
      match skipSpaces rest.dropLast with
      | [] => some []
      | _ => parseItems (rest.length + 1) rest.dropLast
    else none
  | _ => none

/-- The value stored by one iteration of the `PropertyContainer.__init__` loop
for normalized key `k` and raw value `v`, or the exception it raises:
typed keys (`id`/`price`/`size` via `int`, `bed`/`bath` via `float`) map
`None` to `None` and coerce other values fatally; a string-typed
`neighborhood` goes through `ast.literal_eval`; everything else is stored
as-is. -/
def storedValFor (k : String) (v : PyVal) : Except PyErr PyVal :=
  if k = "id" ∨ k = "price" ∨ k = "size" then
    match v with
    | .vNull => .ok .vNull
    | w => (coerceInt w).map .vInt
  else if k = "bed" ∨ k = "bath" then
    match v with
    | .vNull => .ok .vNull
    | w => (coerceFloat w).map .vFloat
  else if k = "neighborhood" then
    match v with
    | .vStr s =>
      match pyLiteralEvalList? s with
      | some xs => .ok (.vList xs)
      | none => .error .valueError
    | w => .ok w
  else .ok v

/-- Per-entry processing: normalize the key and store the (possibly coerced)
value. -/
def processEntryVal (kv : String × PyVal) : Except PyErr PyVal :=
  storedValFor (actualKey kv.1) kv.2

/-- One iteration of the `__init__` loop over the attribute mapping: on
success the attribute is bound (later bindings shadow earlier ones, matching
`setattr` overwrite semantics under lookup-first-match). -/
def processEntry (attrs : List (String × PyVal)) (kv : String × PyVal) :
    Except PyErr (List (String × PyVal)) :=
  (processEntryVal kv).map (fun w => (actualKey kv.1, w) :: attrs)

/-- The whole `for k, v in info.items()` loop of `PropertyContainer.__init__`;
the first coercion/parse failure aborts construction with that exception. -/
def processInfo (info : List (String × PyVal)) : Except PyErr (List (String × PyVal)) :=
  info.foldlM processEntry []

/-- The `neighborhood_set` computation at the end of
`PropertyContainer.__init__`: `set(self.neighborhood)` guarded by
`except TypeError`.  A missing attribute raises `AttributeError` (not caught);
`None` and numbers raise `TypeError` inside `set(...)` and fall back to the
empty set; a string would become its set of characters; a list becomes the set
of its elements. -/
def neighborhoodSetOf (attrs : List (String × PyVal)) : Except PyErr (Finset String) :=
  match List.lookup "neighborhood" attrs with
  | none => .error .attributeError
  | some (.vList xs) => .ok xs.toFinset
  | some (.vStr s) => .ok (s.toList.map Char.toString).toFinset
  | some .vNull => .ok ∅
  | some (.vInt _) => .ok ∅
  | some (.vFloat _) => .ok ∅

/-- The raw value of the last entry of `info` whose normalized key is `k`
(later entries of the mapping shadow earlier ones). -/
def lastRaw (info : List (String × PyVal)) (k : String) : Option PyVal :=
  match info with
  | [] => none
  | kv :: rest =>
    match lastRaw rest k with
    | some v => some v
    | none => if actualKey kv.1 = k then some kv.2 else none

/-- Read a typed integer attribute back out of the processed attribute list
(`None` or a missing key is the absent value). -/
def getOptInt (attrs : List (String × PyVal)) (k : String) : Option ℤ :=
  match List.lookup k attrs with
  | some (.vInt n) => some n
  | _ => none

/-- Read a typed numeric attribute back out of the processed attribute list as
a rational (`None` or a missing key is the absent value). -/
def getOptRat (attrs : List (String × PyVal)) (k : String) : Option ℚ :=
  match List.lookup k attrs with
  | some (.vInt n) => some (n : ℚ)
  | some (.vFloat q) => some q
  | _ => none

/-- A normalized zillow sale record (`class ZPFG`), as used by the comparison
routines: typed nullable numerics, the street and its digit-stripped variant,
and the derived neighborhood set. -/
structure ZPFG where
  id : Option ℤ
  price : Option ℚ
  size : Option ℚ
  bed : Option ℚ
  bath : Option ℚ
  street : String
  stripped_street : String
  neighborhood_set : Finset String
deriving DecidableEq

/-- A normalized airbnb rental record (`class APFG`): typed nullable
bed/bath, categorical `type_id`, the city name, amenity token sets and the
derived neighborhood set. -/
structure APFG where
  id : Option ℤ
  bed : Option ℚ
  bath : Option ℚ
  type_id : Option ℤ
  city : Option String
  amenity_ids : Finset String
  amenity_names : Finset String
  neighborhood_set : Finset String
deriving DecidableEq

/-- Construction of a `ZPFG` from a raw attribute mapping:
`PropertyContainer.__init__` (the entry loop, then the `neighborhood_set`
computation) followed by `ZPFG.__init__`, which reads `self.street` (raising
`AttributeError` when it is missing or not a string, since only strings have
`translate`) and strips the digit characters from it. -/
def buildZPFG (info : List (String × PyVal)) : Except PyErr ZPFG :=
  match processInfo info with
  | .error e => .error e
  | .ok attrs =>
    match neighborhoodSetOf attrs with
    | .error e => .error e
    | .ok ns =>
      match List.lookup "street" attrs with
      | some (.vStr s) =>
        .ok { id := getOptInt attrs "id"
              price := getOptRat attrs "price"
              size := getOptRat attrs "size"
              bed := getOptRat attrs "bed"
              bath := getOptRat attrs "bath"
              street := s
              stripped_street := String.mk (s.toList.filter (fun c => ¬ c.isDigit))
              neighborhood_set := ns }
      | _ => .error .attributeError

/-- Python truthiness of a nullable numeric attribute, as tested by
`all((self.x, other.x))` in the comparison methods: `None` and `0` are falsy,
every other number is truthy. -/
def truthy : Option ℚ → Prop
  | none => False
  | some x => x ≠ 0

instance : (o : Option ℚ) → Decidable (truthy o)
  | none => isFalse (fun h => h)
  | some x => inferInstanceAs (Decidable (x ≠ 0))

/-- The bounded numeric closeness metric `num_sim(base_val, comp_val, ratio)`
of `simScore.py`:
`diff = min(abs(base_val - comp_val) / ((base_val + comp_val) / 2), ratio)`,
result `(ratio - diff) / ratio`. -/
def num_sim (base_val comp_val : ℚ) ( ratio : ℚ) : ℚ :=
  let diff := min (|base_val - comp_val| / ((base_val + comp_val) / 2)) ratio
  ( ratio - diff) / ratio

/-- Set cosine similarity, modelled from the spec (section 4.2) for the
external `py_stringmatching.Cosine().get_sim_score` boundary:
`|A ∩ B| / sqrt(|A| * |B|)`, and `0` when either set is empty. -/
noncomputable def cosineSim (A B : Finset String) : ℝ :=
  if A = ∅ ∨ B = ∅ then 0
  else ((A ∩ B).card : ℝ) / Real.sqrt ((A.card : ℝ) * (B.card : ℝ))

/-- `ZPFG.zillowCompare` (sale vs sale): 0.5-weighted price closeness
(ratio 0.3), 0.2 for an exact stripped-street match, 0.1-weighted bed and
bath closeness (ratio 0.5) and 0.1-weighted size closeness (ratio 0.3); a
numeric term is added only when both operands are truthy. -/
noncomputable def zillowCompare (s other : ZPFG) : ℝ :=
  (if truthy s.price ∧ truthy other.price then
    (0.5 : ℝ) * (num_sim (s.price.getD 0) (other.price.getD 0) (3 / 10) : ℚ) else 0)
  + (if s.stripped_street = other.stripped_street then (0.2 : ℝ) else 0)
  + (if truthy s.bed ∧ truthy other.bed then
    (0.1 : ℝ) * (num_sim (s.bed.getD 0) (other.bed.getD 0) (1 / 2) : ℚ) else 0)
  + (if truthy s.bath ∧ truthy other.bath then
    (0.1 : ℝ) * (num_sim (s.bath.getD 0) (other.bath.getD 0) (1 / 2) : ℚ) else 0)
  + (if truthy s.size ∧ truthy other.size then
    (0.1 : ℝ) * (num_sim (s.size.getD 0) (other.size.getD 0) (3 / 10) : ℚ) else 0)

/-- `ZPFG.airbnbCompare` (invoked by `compare` for a sale record against a
rental record): 1/3-weighted bed and bath closeness (ratio 0.5) plus
1/3-weighted neighborhood-set cosine. -/
noncomputable def zillowAirbnbCompare (s : ZPFG) (other : APFG) : ℝ :=
  (if truthy s.bed ∧ truthy other.bed then
    (1 / 3 : ℝ) * (num_sim (s.bed.getD 0) (other.bed.getD 0) (1 / 2) : ℚ) else 0)
  + (if truthy s.bath ∧ truthy other.bath then
    (1 / 3 : ℝ) * (num_sim (s.bath.getD 0) (other.bath.getD 0) (1 / 2) : ℚ) else 0)
  + (1 / 3 : ℝ) * cosineSim s.neighborhood_set other.neighborhood_set

/-- `APFG.airbnbCompare` (invoked by `compare` for two rental records):
0.25-weighted bed and bath closeness (ratio 0.5), a 0.3 neighborhood-or-city
term (cosine over the neighborhood sets when both are non-empty, else a
binary city match), a 0.1 binary `type_id` match, and 0.05-weighted cosine
over amenity ids and amenity names. -/
noncomputable def airbnbAirbnbCompare (a other : APFG) : ℝ :=
  (if truthy a.bed ∧ truthy other.bed then
    (0.25 : ℝ) * (num_sim (a.bed.getD 0) (other.bed.getD 0) (1 / 2) : ℚ) else 0)
  + (if truthy a.bath ∧ truthy other.bath then
    (0.25 : ℝ) * (num_sim (a.bath.getD 0) (other.bath.getD 0) (1 / 2) : ℚ) else 0)
  + (if 0 < a.neighborhood_set.card ∧ 0 < other.neighborhood_set.card then
      (0.3 : ℝ) * cosineSim a.neighborhood_set other.neighborhood_set
    else if a.city = other.city then (0.3 : ℝ) else 0)
  + (if a.type_id = other.type_id then (0.1 : ℝ) else 0)
  + (0.05 : ℝ) * cosineSim a.amenity_ids other.amenity_ids
  + (0.05 : ℝ) * cosineSim a.amenity_names other.amenity_names

/-- A record of either source, for the `isinstance`-based dispatch. -/
inductive PRecord where
  | zp (s : ZPFG)
  | ap (r : APFG)

/-- The polymorphic `compare` dispatch of `simScore.py`: `ZPFG.compare` uses
`zillowCompare` against another sale record and its own `airbnbCompare`
against a rental; `APFG.compare` uses its own `airbnbCompare` against another
rental and delegates to `other.airbnbCompare(self)` against a sale record. -/
noncomputable def compareP : PRecord → PRecord → ℝ
  | .zp s, .zp other => zillowCompare s other
  | .zp s, .ap r => zillowAirbnbCompare s r
  | .ap a, .ap other => airbnbAirbnbCompare a other
  | .ap a, .zp s => zillowAirbnbCompare s a

/-- Spec formula "Same-source-B (rental vs rental)": bed closeness (1/3,
ratio 0.5) + bath closeness (1/3, ratio 0.5) + neighborhood-set cosine (1/3),
with the section-4.3 rule that a term whose operand is absent contributes
nothing.  This follows the wording of the spec (claim C1), for comparison
with the code's dispatch. -/
noncomputable def specSameSourceB (a b : APFG) : ℝ :=
  (if a.bed ≠ none ∧ b.bed ≠ none then
    (1 / 3 : ℝ) * (num_sim (a.bed.getD 0) (b.bed.getD 0) (1 / 2) : ℚ) else 0)
  + (if a.bath ≠ none ∧ b.bath ≠ none then
    (1 / 3 : ℝ) * (num_sim (a.bath.getD 0) (b.bath.getD 0) (1 / 2) : ℚ) else 0)
  + (1 / 3 : ℝ) * cosineSim a.neighborhood_set b.neighborhood_set

/-- Spec formula "Cross-source (sale vs rental)" applied to two rental
records (both sides carry every attribute the formula mentions): bed and bath
closeness (0.25 each, ratio 0.5), the 0.3 neighborhood-or-city term, the 0.1
binary `type_id` match and the two 0.05 amenity cosines, with the
section-4.3 absent-skipping rule for the numeric terms.  This follows the
wording of the spec, for comparison with the code's dispatch. -/
noncomputable def specCrossOnRentals (a b : APFG) : ℝ :=
  (if a.bed ≠ none ∧ b.bed ≠ none then
    (0.25 : ℝ) * (num_sim (a.bed.getD 0) (b.bed.getD 0) (1 / 2) : ℚ) else 0)
  + (if a.bath ≠ none ∧ b.bath ≠ none then
    (0.25 : ℝ) * (num_sim (a.bath.getD 0) (b.bath.getD 0) (1 / 2) : ℚ) else 0)
  + (if 0 < a.neighborhood_set.card ∧ 0 < b.neighborhood_set.card then
      (0.3 : ℝ) * cosineSim a.neighborhood_set b.neighborhood_set
    else if a.city = b.city then (0.3 : ℝ) else 0)
  + (if a.type_id = b.type_id then (0.1 : ℝ) else 0)
  + (0.05 : ℝ) * cosineSim a.amenity_ids b.amenity_ids
  + (0.05 : ℝ) * cosineSim a.amenity_names b.amenity_names

/-- Spec formula "Cross-source (sale vs rental)" as claim C2 states it, for a
sale record paired with a rental record.  A sale record carries no `type_id`,
`city` or amenity sets, so the binary matches cannot fire and the amenity
cosines compare against the empty set; the remaining terms follow the spec's
wording with the section-4.3 absent-skipping rule. -/
noncomputable def specCrossScore (s : ZPFG) (r : APFG) : ℝ :=
  (if s.bed ≠ none ∧ r.bed ≠ none then
    (0.25 : ℝ) * (num_sim (s.bed.getD 0) (r.bed.getD 0) (1 / 2) : ℚ) else 0)
  + (if s.bath ≠ none ∧ r.bath ≠ none then
    (0.25 : ℝ) * (num_sim (s.bath.getD 0) (r.bath.getD 0) (1 / 2) : ℚ) else 0)
  + (if 0 < s.neighborhood_set.card ∧ 0 < r.neighborhood_set.card then
      (0.3 : ℝ) * cosineSim s.neighborhood_set r.neighborhood_set
    else 0)
  + 0
  + (0.05 : ℝ) * cosineSim ∅ r.amenity_ids
  + (0.05 : ℝ) * cosineSim ∅ r.amenity_names

/-- `itertools.combinations(l, 2)`: all position-ordered pairs of elements of
`l`, the enumeration used for same-source comparisons. -/
def pyCombinations2 {α : Type} : List α → List (α × α)
  | [] => []
  | x :: xs => xs.map (fun y => (x, y)) ++ pyCombinations2 xs

/-- `itertools.product(A, B)`: the ordered Cartesian product, the enumeration
used for cross-source comparisons (oriented `(sale, rental)`). -/
def pyProduct {α β : Type} (A : List α) (B : List β) : List (α × β) :=
  A.flatMap (fun a => B.map (fun b => (a, b)))

/-- `connect_nodes(driver, pairs, threshold)`: scores every pair and, for each
pair at or above the threshold, writes the two directed `Is_Similar` edges
`(p1, p2, score)` and `(p2, p1, score)`, counting 2 per such pair; it reports
the edge count and the total number of pairs.  `pairs[0]` raises `IndexError`
on an empty pair list (the relation banner is built from the first pair).
The score type is kept abstract over a linear order, matching the float
comparison `score >= threshold`. -/
def connect_nodes {α S : Type} [LinearOrder S] (cmp : α → α → S)
    (pairs : List (α × α)) (threshold : S) :
    Except PyErr (List (α × α × S) × ℕ × ℕ) :=
  match pairs with
  | [] => .error .indexError
  | _ :: _ =>
    .ok (pairs.flatMap (fun pq =>
          if threshold ≤ cmp pq.1 pq.2 then
            [(pq.1, pq.2, cmp pq.1 pq.2), (pq.2, pq.1, cmp pq.1 pq.2)]
          else []),
        pairs.foldl (fun c pq => if threshold ≤ cmp pq.1 pq.2 then c + 2 else c) 0,
        pairs.length)

/-- The per-category thresholds of `simScore.py`: 0.7 for sale-sale, 0.98 for
rental-rental, 0.95 for cross-source. -/
def zillowZillowThreshold : ℝ := 0.7

/-- Threshold for rental-rental comparisons. -/
def airbnbAirbnbThreshold : ℝ := 0.98

/-- Threshold for cross-source comparisons. -/
def zillowAirbnbThreshold : ℝ := 0.95

lemma num_sim_comm (x y r : ℚ) : num_sim x y r = num_sim y x r := by
  unfold num_sim
  rw [abs_sub_comm, add_comm]

lemma cosineSim_comm (A B : Finset String) : cosineSim A B = cosineSim B A := by
  unfold cosineSim
  by_cases h : A = ∅ ∨ B = ∅
  · rw [if_pos h, if_pos h.symm]
  · rw [if_neg h, if_neg (fun hc => h hc.symm), Finset.inter_comm, mul_comm]

lemma cosineSim_self (A : Finset String) (h : A ≠ ∅) : cosineSim A A = 1 := by
  unfold cosineSim
  rw [if_neg (by simp [h]), Finset.inter_self,
    Real.sqrt_mul_self (by positivity : (0 : ℝ) ≤ (A.card : ℝ))]
  have hc : (A.card : ℝ) ≠ 0 := by
    simpa [Finset.card_eq_zero] using h
  exact div_self hc

lemma cosineSim_disjoint (A B : Finset String) (h : A ∩ B = ∅) : cosineSim A B = 0 := by
  unfold cosineSim
  by_cases he : A = ∅ ∨ B = ∅
  · rw [if_pos he]
  · rw [if_neg he, h]
    simp

lemma cosineSim_empty_left (B : Finset String) : cosineSim ∅ B = 0 := by
  unfold cosineSim
  simp

lemma truthy_iff (o : Option ℚ) (h : o ≠ some 0) : truthy o ↔ o ≠ none := by
  cases o with
  | none => simp [truthy]
  | some x =>
    have hx : x ≠ 0 := fun h0 => h (by rw [h0])
    simp [truthy, hx]

lemma num_sim_term_comm (p q : Option ℚ) (w : ℝ) (rt : ℚ) :
    (if truthy p ∧ truthy q then w * ((num_sim (p.getD 0) (q.getD 0) rt : ℚ) : ℝ) else 0)
      = (if truthy q ∧ truthy p then w * ((num_sim (q.getD 0) (p.getD 0) rt : ℚ) : ℝ) else 0) := by
  rw [num_sim_comm]
  exact if_congr and_comm rfl rfl

/-- C6 (amended): for nonnegative present inputs `x`, `y` with `x + y ≠ 0`
and tolerance `r > 0`, `num_sim` returns
`(r - min(|x - y| / ((x + y) / 2), r)) / r`; the output lies in `[0, 1]`,
equals `1` when `x = y`, and equals `0` exactly when the mean-relative
difference reaches `r`.  (Without the nonnegativity assumption the bound
fails, see the counterexample.) -/
theorem claimC6_theorem (x y r : ℚ) (hx : 0 ≤ x) (hy : 0 ≤ y)
    (hxy : x + y ≠ 0) (hr : 0 < r) :
    num_sim x y r = (r - min (|x - y| / ((x + y) / 2)) r) / r ∧
    0 ≤ num_sim x y r ∧ num_sim x y r ≤ 1 ∧
    (x = y → num_sim x y r = 1) ∧
    (num_sim x y r = 0 ↔ r ≤ |x - y| / ((x + y) / 2)) := by
  have hsum : 0 < x + y := lt_of_le_of_ne (by positivity) (Ne.symm hxy)
  have hd0 : 0 ≤ |x - y| / ((x + y) / 2) := by positivity
  have hrne : r ≠ 0 := ne_of_gt hr
  have hf : num_sim x y r = (r - min (|x - y| / ((x + y) / 2)) r) / r := rfl
  refine ⟨rfl, ?_, ?_, ?_, ?_⟩
  · rw [hf]
    exact div_nonneg (sub_nonneg.mpr (min_le_right _ _)) hr.le
  · rw [hf, div_le_one hr]
    exact sub_le_self _ (le_min hd0 hr.le)
  · intro hxye
    subst hxye
    simp only [num_sim, sub_self, abs_zero, zero_div, min_eq_left hr.le, sub_zero]
    exact div_self hrne
  · unfold num_sim
    rw [div_eq_zero_iff]
    simp only [hrne, or_false, sub_eq_zero]
    exact ⟨fun h => min_eq_right_iff.mp h.symm, fun h => ((min_eq_right_iff).mpr h).symm⟩

/-- C6 witness: a concrete evaluation through the theorem at
`x = 4`, `y = 5`, `r = 1/2`. -/
theorem claimC6_witness :
    0 ≤ num_sim 4 5 (1 / 2) ∧ num_sim 4 5 (1 / 2) ≤ 1 :=
  ⟨(claimC6_theorem 4 5 (1 / 2) (by norm_num) (by norm_num) (by norm_num)
      (by norm_num)).2.1,
    (claimC6_theorem 4 5 (1 / 2) (by norm_num) (by norm_num) (by norm_num)
      (by norm_num)).2.2.1⟩

/-- C6 counterexample: the claim quantifies over all inputs with
`x + y ≠ 0`, but for inputs of mixed sign the mean-relative difference is
negative and the result exceeds 1: `num_sim(1, -2, 0.3) = 21`. -/
theorem claimC6_counterexample :
    (1 : ℚ) + (-2) ≠ 0 ∧ num_sim 1 (-2) (3 / 10) = 21 ∧
      ¬ num_sim 1 (-2) (3 / 10) ≤ 1 := by
  norm_num [num_sim]

/-- C7 (confirmed): the composite score is symmetric under operand swap for
same-source comparisons, both for two sale records and for two rental
records. -/
theorem claimC7_theorem :
    (∀ a b : ZPFG, compareP (.zp a) (.zp b) = compareP (.zp b) (.zp a)) ∧
    (∀ a b : APFG, compareP (.ap a) (.ap b) = compareP (.ap b) (.ap a)) := by
  constructor
  · intro a b
    simp only [compareP, zillowCompare]
    rw [num_sim_term_comm a.price, num_sim_term_comm a.bed, num_sim_term_comm a.bath,
      num_sim_term_comm a.size, if_congr (eq_comm (a := a.stripped_street)) rfl rfl]
  · intro a b
    simp only [compareP, airbnbAirbnbCompare]
    rw [num_sim_term_comm a.bed, num_sim_term_comm a.bath,
      cosineSim_comm a.neighborhood_set, cosineSim_comm a.amenity_ids,
      cosineSim_comm a.amenity_names,
      if_congr (and_comm (a := 0 < a.neighborhood_set.card)) rfl
        (if_congr (eq_comm (a := a.city)) rfl rfl),
      if_congr (eq_comm (a := a.type_id)) rfl rfl]

/-- C10 (confirmed): cross-source scoring is orientation-independent:
`APFG.compare` against a sale record delegates to the sale record's
`airbnbCompare` with the operands swapped, so both orientations compute the
same score. -/
theorem claimC10_theorem (s : ZPFG) (r : APFG) :
    compareP (.ap r) (.zp s) = compareP (.zp s) (.ap r) := rfl

/-- Spec-side formula used by the amended claim C2: the Same-source-B term
set (bed closeness 1/3, bath closeness 1/3, neighborhood-set cosine 1/3, with
the section-4.3 absent-skipping rule) applied to a (sale, rental) pair. -/
noncomputable def specBOnCross (s : ZPFG) (r : APFG) : ℝ :=
  (if s.bed ≠ none ∧ r.bed ≠ none then
    (1 / 3 : ℝ) * (num_sim (s.bed.getD 0) (r.bed.getD 0) (1 / 2) : ℚ) else 0)
  + (if s.bath ≠ none ∧ r.bath ≠ none then
    (1 / 3 : ℝ) * (num_sim (s.bath.getD 0) (r.bath.getD 0) (1 / 2) : ℚ) else 0)
  + (1 / 3 : ℝ) * cosineSim s.neighborhood_set r.neighborhood_set

/-- A concrete rental record with singleton neighborhood, amenity sets
disjoint from `rentalB`'s, and bed/bath matching `rentalB`. -/
def rentalA : APFG :=
  { id := some 1, bed := some 2, bath := some 1, type_id := some 1,
    city := some "San Diego", amenity_ids := {"wifi"}, amenity_names := {"tv"},
    neighborhood_set := {"North Park"} }

/-- A concrete rental record, neighborhood disjoint from `rentalA`'s. -/
def rentalB : APFG :=
  { id := some 2, bed := some 2, bath := some 1, type_id := some 2,
    city := some "San Diego", amenity_ids := {"pool"}, amenity_names := {"gym"},
    neighborhood_set := {"Hillcrest"} }

/-- C1 counterexample: two rental records with disjoint non-empty singleton
neighborhood sets and matching bed and bath score 1/2 under the code (the
six-term `APFG.airbnbCompare` formula), not the 2/3 the claim's three-term
rental-rental formula predicts. -/
theorem claimC1_counterexample :
    rentalA.neighborhood_set ∩ rentalB.neighborhood_set = ∅ ∧
    rentalA.neighborhood_set ≠ ∅ ∧ rentalB.neighborhood_set ≠ ∅ ∧
    rentalA.bed = rentalB.bed ∧ rentalA.bath = rentalB.bath ∧
    compareP (.ap rentalA) (.ap rentalB) = 1 / 2 ∧
    specSameSourceB rentalA rentalB = 2 / 3 ∧
    compareP (.ap rentalA) (.ap rentalB) ≠ specSameSourceB rentalA rentalB := by
  have h1 : cosineSim {"North Park"} {"Hillcrest"} = 0 :=
    cosineSim_disjoint _ _ (by decide)
  have h2 : cosineSim {"wifi"} {"pool"} = 0 := cosineSim_disjoint _ _ (by decide)
  have h3 : cosineSim {"tv"} {"gym"} = 0 := cosineSim_disjoint _ _ (by decide)
  have hc : compareP (.ap rentalA) (.ap rentalB) = 1 / 2 := by
    simp [compareP, airbnbAirbnbCompare, rentalA, rentalB, truthy, h1, h2, h3]
    norm_num [num_sim]
  have hs : specSameSourceB rentalA rentalB = 2 / 3 := by
    simp [specSameSourceB, rentalA, rentalB, h1]
    norm_num [num_sim]
  refine ⟨by decide, by decide, by decide, by decide, by decide, hc, hs, ?_⟩
  rw [hc, hs]
  norm_num

/-- C1 (amended): a rental-rental comparison is scored by the six-term
formula the spec labels "cross-source" (bed 0.25, bath 0.25,
neighborhood-or-city 0.3, type 0.1, amenity cosines 0.05 each), not by the
three-term 1/3-weighted formula; stated for attribute values that are absent
or nonzero, where Python truthiness coincides with the spec's absence test. -/
theorem claimC1_theorem (a b : APFG)
    (ha1 : a.bed ≠ some 0) (hb1 : b.bed ≠ some 0)
    (ha2 : a.bath ≠ some 0) (hb2 : b.bath ≠ some 0) :
    compareP (.ap a) (.ap b) = specCrossOnRentals a b := by
  simp only [compareP, airbnbAirbnbCompare, specCrossOnRentals]
  rw [if_congr (and_congr (truthy_iff _ ha1) (truthy_iff _ hb1)) rfl rfl,
    if_congr (and_congr (truthy_iff _ ha2) (truthy_iff _ hb2)) rfl rfl]

/-- C1 witness: the amended theorem applied to the concrete rental pair. -/
theorem claimC1_witness :
    compareP (.ap rentalA) (.ap rentalB) = specCrossOnRentals rentalA rentalB :=
  claimC1_theorem rentalA rentalB (by decide) (by decide) (by decide) (by decide)

/-- A concrete sale record: bed 2, bath absent, one neighborhood. -/
def saleA : ZPFG :=
  { id := some 10, price := none, size := none, bed := some 2, bath := none,
    street := "B St 12", stripped_street := "B St ",
    neighborhood_set := {"North Park"} }

/-- A concrete rental record sharing `saleA`'s bed count and neighborhood. -/
def rentalC : APFG :=
  { id := some 3, bed := some 2, bath := none, type_id := some 1,
    city := some "San Diego", amenity_ids := {"wifi"}, amenity_names := {"tv"},
    neighborhood_set := {"North Park"} }

/-- C2 counterexample: the code scores a (sale, rental) pair with the
three-term 1/3-weighted formula (here 2/3), not with the six-term
0.25/0.25/0.3/0.1/0.05/0.05 formula the claim states (which yields 11/20 on
this pair, the binary and amenity terms being unable to fire for a sale
record that carries no `type_id`, `city` or amenity sets). -/
theorem claimC2_counterexample :
    compareP (.zp saleA) (.ap rentalC) = 2 / 3 ∧
    specCrossScore saleA rentalC = 11 / 20 ∧
    compareP (.zp saleA) (.ap rentalC) ≠ specCrossScore saleA rentalC := by
  have h1 : cosineSim {"North Park"} {"North Park"} = 1 := cosineSim_self _ (by decide)
  have h2 : cosineSim ∅ {"wifi"} = 0 := cosineSim_empty_left _
  have h3 : cosineSim ∅ {"tv"} = 0 := cosineSim_empty_left _
  have hc : compareP (.zp saleA) (.ap rentalC) = 2 / 3 := by
    simp [compareP, zillowAirbnbCompare, saleA, rentalC, truthy, h1]
    norm_num [num_sim]
  have hs : specCrossScore saleA rentalC = 11 / 20 := by
    simp [specCrossScore, saleA, rentalC, h1, h2, h3]
    norm_num [num_sim]
  refine ⟨hc, hs, ?_⟩
  rw [hc, hs]
  norm_num

/-- C2 (amended): a cross-source (sale, rental) comparison is scored by the
three-term formula the spec labels "Same-source-B": 1/3-weighted bed and bath
closeness (ratio 0.5) plus 1/3-weighted neighborhood-set cosine; stated for
attribute values that are absent or nonzero, where Python truthiness
coincides with the spec's absence test. -/
theorem claimC2_theorem (s : ZPFG) (r : APFG)
    (hs1 : s.bed ≠ some 0) (hr1 : r.bed ≠ some 0)
    (hs2 : s.bath ≠ some 0) (hr2 : r.bath ≠ some 0) :
    compareP (.zp s) (.ap r) = specBOnCross s r := by
  simp only [compareP, zillowAirbnbCompare, specBOnCross]
  rw [if_congr (and_congr (truthy_iff _ hs1) (truthy_iff _ hr1)) rfl rfl,
    if_congr (and_congr (truthy_iff _ hs2) (truthy_iff _ hr2)) rfl rfl]

/-- C2 witness: the amended theorem applied to the concrete cross pair. -/
theorem claimC2_witness :
    compareP (.zp saleA) (.ap rentalC) = specBOnCross saleA rentalC :=
  claimC2_theorem saleA rentalC (by decide) (by decide) (by decide) (by decide)

/-- A concrete rental record whose bed count is the legitimate value 0. -/
def rentalZ : APFG :=
  { id := some 4, bed := some 0, bath := some 2, type_id := some 1,
    city := some "San Diego", amenity_ids := {"wifi"}, amenity_names := {"tv"},
    neighborhood_set := {"North Park"} }

/-- A second concrete rental record with bed count 0. -/
def rentalZ2 : APFG :=
  { id := some 5, bed := some 0, bath := some 2, type_id := some 1,
    city := some "San Diego", amenity_ids := {"wifi"}, amenity_names := {"tv"},
    neighborhood_set := {"North Park"} }

/-- `rentalZ` with its bed count made absent. -/
def rentalZabsent : APFG :=
  { rentalZ with bed := none }

/-- C3 counterexample: both operands carry the present (zero) bed value, yet
the bed term contributes exactly 0 — the score is the same as with the
attribute absent — because the `all(...)` truthiness test skips zero values;
this refutes both directions of the claim ("contributes 0 only when absent"
and "zero is scored as present"). -/
theorem claimC3_counterexample :
    rentalZ.bed = some 0 ∧ rentalZ2.bed = some 0 ∧
    compareP (.ap rentalZ) (.ap rentalZ2) =
      compareP (.ap rentalZabsent) (.ap rentalZ2) := by
  refine ⟨rfl, rfl, ?_⟩
  simp [compareP, airbnbAirbnbCompare, rentalZ, rentalZ2, rentalZabsent, truthy]

/-- C3 (amended): a weighted numeric term is skipped (contributes exactly 0,
leaving every other term and weight unchanged) whenever either operand is
absent **or zero** — Python truthiness, which treats a legitimate 0 like an
absent value; shown for every weighted numeric term of every composite
scorer (bed and bath of the rental-rental scorer, price, bed, bath and size
of the sale-sale scorer, bed and bath of the cross-source scorer), on either
operand, by replacing the falsy attribute with the absent value without
changing the score. -/
theorem claimC3_theorem :
    (∀ a b : APFG, ¬ truthy a.bed →
      compareP (.ap a) (.ap b) = compareP (.ap { a with bed := none }) (.ap b)) ∧
    (∀ a b : APFG, ¬ truthy b.bed →
      compareP (.ap a) (.ap b) = compareP (.ap a) (.ap { b with bed := none })) ∧
    (∀ a b : APFG, ¬ truthy a.bath →
      compareP (.ap a) (.ap b) = compareP (.ap { a with bath := none }) (.ap b)) ∧
    (∀ a b : APFG, ¬ truthy b.bath →
      compareP (.ap a) (.ap b) = compareP (.ap a) (.ap { b with bath := none })) ∧
    (∀ s o : ZPFG, ¬ truthy s.price →
      compareP (.zp s) (.zp o) = compareP (.zp { s with price := none }) (.zp o)) ∧
    (∀ s o : ZPFG, ¬ truthy o.price →
      compareP (.zp s) (.zp o) = compareP (.zp s) (.zp { o with price := none })) ∧
    (∀ s o : ZPFG, ¬ truthy s.bed →
      compareP (.zp s) (.zp o) = compareP (.zp { s with bed := none }) (.zp o)) ∧
    (∀ s o : ZPFG, ¬ truthy o.bed →
      compareP (.zp s) (.zp o) = compareP (.zp s) (.zp { o with bed := none })) ∧
    (∀ s o : ZPFG, ¬ truthy s.bath →
      compareP (.zp s) (.zp o) = compareP (.zp { s with bath := none }) (.zp o)) ∧
    (∀ s o : ZPFG, ¬ truthy o.bath →
      compareP (.zp s) (.zp o) = compareP (.zp s) (.zp { o with bath := none })) ∧
    (∀ s o : ZPFG, ¬ truthy s.size →
      compareP (.zp s) (.zp o) = compareP (.zp { s with size := none }) (.zp o)) ∧
    (∀ s o : ZPFG, ¬ truthy o.size →
      compareP (.zp s) (.zp o) = compareP (.zp s) (.zp { o with size := none })) ∧
    (∀ (s : ZPFG) (r : APFG), ¬ truthy s.bed →
      compareP (.zp s) (.ap r) = compareP (.zp { s with bed := none }) (.ap r)) ∧
    (∀ (s : ZPFG) (r : APFG), ¬ truthy r.bed →
      compareP (.zp s) (.ap r) = compareP (.zp s) (.ap { r with bed := none })) ∧
    (∀ (s : ZPFG) (r : APFG), ¬ truthy s.bath →
      compareP (.zp s) (.ap r) = compareP (.zp { s with bath := none }) (.ap r)) ∧
    (∀ (s : ZPFG) (r : APFG), ¬ truthy r.bath →
      compareP (.zp s) (.ap r) = compareP (.zp s) (.ap { r with bath := none })) := by
  refine ⟨?_, ?_, ?_, ?_, ?_, ?_, ?_, ?_, ?_, ?_, ?_, ?_, ?_, ?_, ?_, ?_⟩
  · intro a b h
    have h1 : ¬ (truthy a.bed ∧ truthy b.bed) := fun hc => h hc.1
    have h2 : ¬ (truthy (none : Option ℚ) ∧ truthy b.bed) := fun hc => hc.1
    simp [compareP, airbnbAirbnbCompare, h1, h2]
  · intro a b h
    have h1 : ¬ (truthy a.bed ∧ truthy b.bed) := fun hc => h hc.2
    have h2 : ¬ (truthy a.bed ∧ truthy (none : Option ℚ)) := fun hc => hc.2
    simp [compareP, airbnbAirbnbCompare, h1, h2]
  · intro a b h
    have h1 : ¬ (truthy a.bath ∧ truthy b.bath) := fun hc => h hc.1
    have h2 : ¬ (truthy (none : Option ℚ) ∧ truthy b.bath) := fun hc => hc.1
    simp [compareP, airbnbAirbnbCompare, h1, h2]
  · intro a b h
    have h1 : ¬ (truthy a.bath ∧ truthy b.bath) := fun hc => h hc.2
    have h2 : ¬ (truthy a.bath ∧ truthy (none : Option ℚ)) := fun hc => hc.2
    simp [compareP, airbnbAirbnbCompare, h1, h2]
  · intro s o h
    have h1 : ¬ (truthy s.price ∧ truthy o.price) := fun hc => h hc.1
    have h2 : ¬ (truthy (none : Option ℚ) ∧ truthy o.price) := fun hc => hc.1
    simp [compareP, zillowCompare, h1, h2]
  · intro s o h
    have h1 : ¬ (truthy s.price ∧ truthy o.price) := fun hc => h hc.2
    have h2 : ¬ (truthy s.price ∧ truthy (none : Option ℚ)) := fun hc => hc.2
    simp [compareP, zillowCompare, h1, h2]
  · intro s o h
    have h1 : ¬ (truthy s.bed ∧ truthy o.bed) := fun hc => h hc.1
    have h2 : ¬ (truthy (none : Option ℚ) ∧ truthy o.bed) := fun hc => hc.1
    simp [compareP, zillowCompare, h1, h2]
  · intro s o h
    have h1 : ¬ (truthy s.bed ∧ truthy o.bed) := fun hc => h hc.2
    have h2 : ¬ (truthy s.bed ∧ truthy (none : Option ℚ)) := fun hc => hc.2
    simp [compareP, zillowCompare, h1, h2]
  · intro s o h
    have h1 : ¬ (truthy s.bath ∧ truthy o.bath) := fun hc => h hc.1
    have h2 : ¬ (truthy (none : Option ℚ) ∧ truthy o.bath) := fun hc => hc.1
    simp [compareP, zillowCompare, h1, h2]
  · intro s o h
    have h1 : ¬ (truthy s.bath ∧ truthy o.bath) := fun hc => h hc.2
    have h2 : ¬ (truthy s.bath ∧ truthy (none : Option ℚ)) := fun hc => hc.2
    simp [compareP, zillowCompare, h1, h2]
  · intro s o h
    have h1 : ¬ (truthy s.size ∧ truthy o.size) := fun hc => h hc.1
    have h2 : ¬ (truthy (none : Option ℚ) ∧ truthy o.size) := fun hc => hc.1
    simp [compareP, zillowCompare, h1, h2]
  · intro s o h
    have h1 : ¬ (truthy s.size ∧ truthy o.size) := fun hc => h hc.2
    have h2 : ¬ (truthy s.size ∧ truthy (none : Option ℚ)) := fun hc => hc.2
    simp [compareP, zillowCompare, h1, h2]
  · intro s r h
    have h1 : ¬ (truthy s.bed ∧ truthy r.bed) := fun hc => h hc.1
    have h2 : ¬ (truthy (none : Option ℚ) ∧ truthy r.bed) := fun hc => hc.1
    simp [compareP, zillowAirbnbCompare, h1, h2]
  · intro s r h
    have h1 : ¬ (truthy s.bed ∧ truthy r.bed) := fun hc => h hc.2
    have h2 : ¬ (truthy s.bed ∧ truthy (none : Option ℚ)) := fun hc => hc.2
    simp [compareP, zillowAirbnbCompare, h1, h2]
  · intro s r h
    have h1 : ¬ (truthy s.bath ∧ truthy r.bath) := fun hc => h hc.1
    have h2 : ¬ (truthy (none : Option ℚ) ∧ truthy r.bath) := fun hc => hc.1
    simp [compareP, zillowAirbnbCompare, h1, h2]
  · intro s r h
    have h1 : ¬ (truthy s.bath ∧ truthy r.bath) := fun hc => h hc.2
    have h2 : ¬ (truthy s.bath ∧ truthy (none : Option ℚ)) := fun hc => hc.2
    simp [compareP, zillowAirbnbCompare, h1, h2]

/-- C3 witness: the amended theorem applied to the concrete zero-bed rental
pair (bed term of the rental-rental scorer) and to a concrete sale pair with
an absent size (size term of the sale-sale scorer). -/
theorem claimC3_witness :
    (compareP (.ap rentalZ) (.ap rentalZ2) =
      compareP (.ap { rentalZ with bed := none }) (.ap rentalZ2)) ∧
    (compareP (.zp saleA) (.zp saleA) =
      compareP (.zp { saleA with size := none }) (.zp saleA)) :=
  ⟨claimC3_theorem.1 rentalZ rentalZ2 (by decide),
    claimC3_theorem.2.2.2.2.2.2.2.2.2.2.1 saleA saleA (by decide)⟩

lemma mem_pyCombinations2 {α : Type} {l : List α} {p : α × α}
    (h : p ∈ pyCombinations2 l) : p.1 ∈ l ∧ p.2 ∈ l := by
  induction l with
  | nil => simp [pyCombinations2] at h
  | cons x xs ih =>
    simp only [pyCombinations2, List.mem_append, List.mem_map] at h
    rcases h with ⟨y, hy, rfl⟩ | h
    · exact ⟨List.mem_cons_self _ _, List.mem_cons_of_mem _ hy⟩
    · exact ⟨List.mem_cons_of_mem _ (ih h).1, List.mem_cons_of_mem _ (ih h).2⟩

lemma pyCombinations2_irrefl {α : Type} {l : List α} (hl : l.Nodup) :
    ∀ p ∈ pyCombinations2 l, p.1 ≠ p.2 := by
  induction l with
  | nil => simp [pyCombinations2]
  | cons x xs ih =>
    intro p hp
    simp only [pyCombinations2, List.mem_append, List.mem_map] at hp
    rcases hp with ⟨y, hy, rfl⟩ | hp
    · intro hxy
      have hxy2 : x = y := hxy
      exact (List.nodup_cons.mp hl).1 (hxy2 ▸ hy)
    · exact ih (List.nodup_cons.mp hl).2 p hp

lemma pyCombinations2_not_swap {α : Type} {l : List α} (hl : l.Nodup) :
    ∀ a b : α, (a, b) ∈ pyCombinations2 l → (b, a) ∉ pyCombinations2 l := by
  induction l with
  | nil => simp [pyCombinations2]
  | cons x xs ih =>
    intro a b hab hba
    have hx : x ∉ xs := (List.nodup_cons.mp hl).1
    have hxs : xs.Nodup := (List.nodup_cons.mp hl).2
    simp only [pyCombinations2, List.mem_append, List.mem_map] at hab hba
    rcases hab with ⟨y, hy, hey⟩ | hab
    · have hxa : x = a := congrArg Prod.fst hey
      have hyb : y = b := congrArg Prod.snd hey
      rcases hba with ⟨z, hz, hez⟩ | hba
      · have hxb : x = b := congrArg Prod.fst hez
        exact hx (by rw [hxb, ← hyb]; exact hy)
      · exact hx (by rw [hxa]; exact (mem_pyCombinations2 hba).2)
    · rcases hba with ⟨z, hz, hez⟩ | hba
      · have hbx : x = b := congrArg Prod.fst hez
        exact hx (hbx ▸ (mem_pyCombinations2 hab).2)
      · exact ih hxs a b hab hba

lemma pyCombinations2_nodup {α : Type} {l : List α} (hl : l.Nodup) :
    (pyCombinations2 l).Nodup := by
  induction l with
  | nil => simp [pyCombinations2]
  | cons x xs ih =>
    have hx : x ∉ xs := (List.nodup_cons.mp hl).1
    have hxs : xs.Nodup := (List.nodup_cons.mp hl).2
    refine List.Nodup.append ?_ (ih hxs) ?_
    · exact hxs.map (fun u v huv => congrArg Prod.snd huv)
    · intro p hp hp2
      simp only [List.mem_map] at hp
      obtain ⟨y, hy, rfl⟩ := hp
      exact hx (mem_pyCombinations2 hp2).1

lemma pyCombinations2_complete {α : Type} {l : List α} :
    ∀ a b : α, a ∈ l → b ∈ l → a ≠ b →
      (a, b) ∈ pyCombinations2 l ∨ (b, a) ∈ pyCombinations2 l := by
  induction l with
  | nil => simp
  | cons x xs ih =>
    intro a b ha hb hab
    simp only [List.mem_cons] at ha hb
    rcases ha with rfl | ha
    · rcases hb with rfl | hb
      · exact absurd rfl hab
      · exact Or.inl (by
          simp only [pyCombinations2, List.mem_append, List.mem_map]
          exact Or.inl ⟨b, hb, rfl⟩)
    · rcases hb with rfl | hb
      · exact Or.inr (by
          simp only [pyCombinations2, List.mem_append, List.mem_map]
          exact Or.inl ⟨a, ha, rfl⟩)
      · rcases ih a b ha hb hab with h | h
        · exact Or.inl (by
            simp only [pyCombinations2, List.mem_append]
            exact Or.inr h)
        · exact Or.inr (by
            simp only [pyCombinations2, List.mem_append]
            exact Or.inr h)

lemma pyProduct_length {α β : Type} (A : List α) (B : List β) :
    (pyProduct A B).length = A.length * B.length := by
  induction A with
  | nil => simp [pyProduct]
  | cons a A ih =>
    simp only [pyProduct, List.flatMap_cons, List.length_append, List.length_map,
      List.length_cons] at ih ⊢
    rw [ih, Nat.succ_mul, Nat.add_comm]

lemma mem_pyProduct {α β : Type} {A : List α} {B : List β} {a : α} {b : β} :
    (a, b) ∈ pyProduct A B ↔ a ∈ A ∧ b ∈ B := by
  simp only [pyProduct, List.mem_flatMap, List.mem_map, Prod.mk.injEq]
  constructor
  · rintro ⟨a2, ha2, b2, hb2, rfl, rfl⟩
    exact ⟨ha2, hb2⟩
  · rintro ⟨ha, hb⟩
    exact ⟨a, ha, b, hb, rfl, rfl⟩

lemma pyProduct_nodup {α β : Type} {A : List α} {B : List β}
    (hA : A.Nodup) (hB : B.Nodup) : (pyProduct A B).Nodup := by
  induction A with
  | nil => simp [pyProduct]
  | cons a A ih =>
    have ha : a ∉ A := (List.nodup_cons.mp hA).1
    have hA2 : A.Nodup := (List.nodup_cons.mp hA).2
    simp only [pyProduct, List.flatMap_cons]
    refine List.Nodup.append ?_ (ih hA2) ?_
    · exact hB.map (fun u v huv => congrArg Prod.snd huv)
    · intro p hp hp2
      simp only [List.mem_map] at hp
      obtain ⟨b, hb, rfl⟩ := hp
      have : a ∈ A := by
        have := (mem_pyProduct (A := A) (B := B)).mp hp2
        exact this.1
      exact ha this

/-- C8 (confirmed): for a same-source collection without duplicates the
enumerator `itertools.combinations(l, 2)` yields no self-pair, never both
orders of an unordered pair, no duplicate entry, and every unordered pair of
distinct members in exactly one order; for cross-source collections
`itertools.product(A, B)` yields exactly `len(A) * len(B)` ordered pairs,
membership is exactly the Cartesian product (oriented (A, B)), and there are
no duplicates when the inputs have none. -/
theorem claimC8_theorem :
    (∀ (α : Type) (l : List α), l.Nodup →
      (∀ p ∈ pyCombinations2 l, p.1 ≠ p.2) ∧
      (∀ a b : α, (a, b) ∈ pyCombinations2 l → (b, a) ∉ pyCombinations2 l) ∧
      (pyCombinations2 l).Nodup ∧
      (∀ a b : α, a ∈ l → b ∈ l → a ≠ b →
        (a, b) ∈ pyCombinations2 l ∨ (b, a) ∈ pyCombinations2 l)) ∧
    (∀ (α β : Type) (A : List α) (B : List β),
      (pyProduct A B).length = A.length * B.length ∧
      (∀ (a : α) (b : β), (a, b) ∈ pyProduct A B ↔ a ∈ A ∧ b ∈ B) ∧
      (A.Nodup → B.Nodup → (pyProduct A B).Nodup)) :=
  ⟨fun _ _ hl =>
    ⟨pyCombinations2_irrefl hl, pyCombinations2_not_swap hl,
      pyCombinations2_nodup hl, fun _ _ => pyCombinations2_complete _ _⟩,
    fun _ _ A B =>
      ⟨pyProduct_length A B, fun _ _ => mem_pyProduct,
        fun hA hB => pyProduct_nodup hA hB⟩⟩

/-- C8 witness: the theorem applied to concrete record collections. -/
theorem claimC8_witness :
    (∀ p ∈ pyCombinations2 [1, 2, 3], p.1 ≠ p.2) ∧
    (pyCombinations2 ([1, 2, 3] : List ℕ)).Nodup ∧
    (pyProduct ([1, 2] : List ℕ) ([10, 20, 30] : List ℕ)).length = 2 * 3 :=
  ⟨((claimC8_theorem.1 ℕ [1, 2, 3] (by decide)).1),
    ((claimC8_theorem.1 ℕ [1, 2, 3] (by decide)).2.2.1),
    (claimC8_theorem.2 ℕ ℕ [1, 2] [10, 20, 30]).1⟩

lemma edges_length_eq {α S : Type} [LinearOrder S] (cmp : α → α → S)
    (threshold : S) (pairs : List (α × α)) :
    (pairs.flatMap (fun pq =>
        if threshold ≤ cmp pq.1 pq.2 then
          [(pq.1, pq.2, cmp pq.1 pq.2), (pq.2, pq.1, cmp pq.1 pq.2)]
        else [])).length
      = 2 * (pairs.filter (fun pq => threshold ≤ cmp pq.1 pq.2)).length := by
  induction pairs with
  | nil => simp
  | cons p rest ih =>
    by_cases h : threshold ≤ cmp p.1 p.2
    · simp only [List.flatMap_cons, if_pos h, List.length_append, ih,
        List.filter_cons, h, List.length_cons]
      simp
      omega
    · simp [h, ih]

lemma count_foldl_eq {α S : Type} [LinearOrder S] (cmp : α → α → S)
    (threshold : S) (pairs : List (α × α)) :
    ∀ n : ℕ,
      pairs.foldl (fun c pq => if threshold ≤ cmp pq.1 pq.2 then c + 2 else c) n
        = n + 2 * (pairs.filter (fun pq => threshold ≤ cmp pq.1 pq.2)).length := by
  induction pairs with
  | nil => simp
  | cons p rest ih =>
    intro n
    by_cases h : threshold ≤ cmp p.1 p.2
    · simp only [List.foldl_cons, if_pos h]
      rw [ih (n + 2)]
      simp [List.filter_cons, h]
      omega
    · simp only [List.foldl_cons, if_neg h]
      rw [ih n]
      simp [List.filter_cons, h]

/-- C9 (confirmed): on a nonempty pair list, `connect_nodes` succeeds and
returns the written edge list together with the reported edge count and the
reported total; each pair at or above the threshold contributes exactly its
two directed edges (both carrying the pair's score), every written edge comes
from such a pair, the edge count is twice the number of pairs at or above
threshold, and the reported total is the number of pairs considered.  (On an
empty pair list the function raises `IndexError` from `pairs[0]`.) -/
theorem claimC9_theorem {α S : Type} [LinearOrder S] (cmp : α → α → S)
    (pairs : List (α × α)) (threshold : S) (hne : pairs ≠ []) :
    ∃ edges count,
      connect_nodes cmp pairs threshold = .ok (edges, count, pairs.length) ∧
      count = edges.length ∧
      edges.length
        = 2 * (pairs.filter (fun pq => threshold ≤ cmp pq.1 pq.2)).length ∧
      (∀ pq ∈ pairs, threshold ≤ cmp pq.1 pq.2 →
        (pq.1, pq.2, cmp pq.1 pq.2) ∈ edges ∧
        (pq.2, pq.1, cmp pq.1 pq.2) ∈ edges) ∧
      (∀ e ∈ edges, ∃ pq ∈ pairs, threshold ≤ cmp pq.1 pq.2 ∧
        (e = (pq.1, pq.2, cmp pq.1 pq.2) ∨ e = (pq.2, pq.1, cmp pq.1 pq.2))) := by
  match pairs, hne with
  | p :: rest, _ =>
    refine ⟨_, _, rfl, ?_, ?_, ?_, ?_⟩
    · rw [count_foldl_eq, edges_length_eq]
      omega
    · exact edges_length_eq cmp threshold (p :: rest)
    · intro pq hpq h
      constructor
      · exact List.mem_flatMap.mpr ⟨pq, hpq, by rw [if_pos h]; simp⟩
      · exact List.mem_flatMap.mpr ⟨pq, hpq, by rw [if_pos h]; simp⟩
    · intro e he
      obtain ⟨pq, hpq, hin⟩ := List.mem_flatMap.mp he
      by_cases h : threshold ≤ cmp pq.1 pq.2
      · rw [if_pos h] at hin
        simp only [List.mem_cons, List.not_mem_nil, or_false] at hin
        exact ⟨pq, hpq, h, hin⟩
      · rw [if_neg h] at hin
        exact absurd hin (List.not_mem_nil e)

/-- C9 witness: the theorem applied to a concrete two-pair run with one pair
above and one pair below the threshold. -/
theorem claimC9_witness :
    ∃ edges count,
      connect_nodes (fun a b : ℕ => ((a + b : ℕ) : ℚ)) [(1, 2), (0, 0)] 2
          = .ok (edges, count, 2) ∧
      count = edges.length ∧
      edges.length
        = 2 * (([(1, 2), (0, 0)] : List (ℕ × ℕ)).filter
            (fun pq => (2 : ℚ) ≤ ((pq.1 + pq.2 : ℕ) : ℚ))).length ∧
      (∀ pq ∈ ([(1, 2), (0, 0)] : List (ℕ × ℕ)),
        (2 : ℚ) ≤ ((pq.1 + pq.2 : ℕ) : ℚ) →
        (pq.1, pq.2, ((pq.1 + pq.2 : ℕ) : ℚ)) ∈ edges ∧
        (pq.2, pq.1, ((pq.1 + pq.2 : ℕ) : ℚ)) ∈ edges) ∧
      (∀ e ∈ edges, ∃ pq ∈ ([(1, 2), (0, 0)] : List (ℕ × ℕ)),
        (2 : ℚ) ≤ ((pq.1 + pq.2 : ℕ) : ℚ) ∧
        (e = (pq.1, pq.2, ((pq.1 + pq.2 : ℕ) : ℚ)) ∨
          e = (pq.2, pq.1, ((pq.1 + pq.2 : ℕ) : ℚ)))) :=
  claimC9_theorem (fun a b : ℕ => ((a + b : ℕ) : ℚ)) [(1, 2), (0, 0)] 2
    (by simp)

/-- The value the `__init__` loop stores for an entry, on the success path
(the error path never stores; the default is irrelevant). -/
def storedOf (kv : String × PyVal) : PyVal :=
  match processEntryVal kv with
  | .ok w => w
  | .error _ => .vNull

/-- The attribute list produced by a fully successful `__init__` loop. -/
def processedAttrs (info : List (String × PyVal)) : List (String × PyVal) :=
  (info.map (fun kv => (actualKey kv.1, storedOf kv))).reverse

lemma foldlM_processEntry_ok :
    ∀ (info : List (String × PyVal)) (acc : List (String × PyVal)),
      (∀ kv ∈ info, isOkE (processEntryVal kv) = true) →
      info.foldlM processEntry acc =
        .ok ((info.map (fun kv => (actualKey kv.1, storedOf kv))).reverse ++ acc) := by
  intro info
  induction info with
  | nil => intro acc h; rfl
  | cons kv rest ih =>
    intro acc h
    have hkv := h kv (List.mem_cons_self _ _)
    obtain ⟨w, hw⟩ : ∃ w, processEntryVal kv = .ok w := by
      cases hpe : processEntryVal kv with
      | ok w => exact ⟨w, rfl⟩
      | error e => rw [hpe] at hkv; simp [isOkE] at hkv
    rw [List.foldlM_cons]
    have hpe : processEntry acc kv = .ok ((actualKey kv.1, w) :: acc) := by
      unfold processEntry
      rw [hw]
      rfl
    rw [hpe]
    show rest.foldlM processEntry ((actualKey kv.1, w) :: acc) = _
    rw [ih _ (fun kv2 hm => h kv2 (List.mem_cons_of_mem _ hm))]
    simp [storedOf, hw, List.append_assoc]

lemma foldlM_processEntry_err :
    ∀ (info : List (String × PyVal)) (acc : List (String × PyVal))
      (kv : String × PyVal), kv ∈ info → isOkE (processEntryVal kv) = false →
      isOkE (info.foldlM processEntry acc) = false := by
  intro info
  induction info with
  | nil => intro acc kv h; simp at h
  | cons kv0 rest ih =>
    intro acc kv hmem hbad
    rw [List.foldlM_cons]
    cases hpe : processEntryVal kv0 with
    | error e =>
      have hf : processEntry acc kv0 = .error e := by
        unfold processEntry
        rw [hpe]
        rfl
      rw [hf]
      rfl
    | ok w =>
      have hf : processEntry acc kv0 = .ok ((actualKey kv0.1, w) :: acc) := by
        unfold processEntry
        rw [hpe]
        rfl
      rw [hf]
      show isOkE (rest.foldlM processEntry ((actualKey kv0.1, w) :: acc)) = false
      rcases List.mem_cons.mp hmem with rfl | hmem2
      · rw [hpe] at hbad; simp [isOkE] at hbad
      · exact ih _ kv hmem2 hbad

lemma lookup_append3 (k : String) (l1 l2 : List (String × PyVal)) :
    List.lookup k (l1 ++ l2) =
      match List.lookup k l1 with
      | some v => some v
      | none => List.lookup k l2 := by
  induction l1 with
  | nil => simp
  | cons a t ih =>
    simp only [List.cons_append, List.lookup]
    cases hbeq : k == a.1 with
    | true => rfl
    | false => simp [ih]

lemma lastRaw_mem {info : List (String × PyVal)} {k : String} {v : PyVal}
    (h : lastRaw info k = some v) :
    ∃ kv ∈ info, actualKey kv.1 = k ∧ kv.2 = v := by
  induction info with
  | nil => simp [lastRaw] at h
  | cons kv rest ih =>
    simp only [lastRaw] at h
    cases hlr : lastRaw rest k with
    | some w =>
      simp only [hlr] at h
      have hwv : w = v := Option.some.inj h
      rw [hwv] at hlr
      obtain ⟨kv2, hm, hk, hv⟩ := ih hlr
      exact ⟨kv2, List.mem_cons_of_mem _ hm, hk, hv⟩
    | none =>
      simp only [hlr] at h
      by_cases hc : actualKey kv.1 = k
      · rw [if_pos hc] at h
        exact ⟨kv, List.mem_cons_self _ _, hc, (Option.some.inj h)⟩
      · rw [if_neg hc] at h
        exact absurd h (Option.noConfusion)

lemma lookup_processed (info : List (String × PyVal))
    (h : ∀ kv ∈ info, isOkE (processEntryVal kv) = true) (k : String) :
    List.lookup k (processedAttrs info) =
      match lastRaw info k with
      | some v => (storedValFor k v).toOption
      | none => none := by
  induction info with
  | nil => simp [processedAttrs, lastRaw]
  | cons kv rest ih =>
    have hh : ∀ kv2 ∈ rest, isOkE (processEntryVal kv2) = true :=
      fun kv2 hm => h kv2 (List.mem_cons_of_mem _ hm)
    simp only [processedAttrs, List.map_cons, List.reverse_cons]
    rw [lookup_append3]
    have ih2 := ih hh
    simp only [processedAttrs] at ih2
    rw [ih2]
    simp only [lastRaw]
    cases hlr : lastRaw rest k with
    | some v =>
      obtain ⟨kv2, hm2, hk2, hv2⟩ := lastRaw_mem hlr
      have hok : isOkE (processEntryVal kv2) = true := hh kv2 hm2
      obtain ⟨w, hw⟩ : ∃ w, storedValFor k v = .ok w := by
        cases hpe : storedValFor k v with
        | ok w => exact ⟨w, rfl⟩
        | error e =>
          have : processEntryVal kv2 = .error e := by
            unfold processEntryVal
            rw [hk2, hv2, hpe]
          rw [this] at hok
          simp [isOkE] at hok
      simp [hw, Except.toOption]
    | none =>
      by_cases hc : actualKey kv.1 = k
      · simp only [if_pos hc]
        have hok : isOkE (processEntryVal kv) = true := h kv (List.mem_cons_self _ _)
        obtain ⟨w, hw⟩ : ∃ w, processEntryVal kv = .ok w := by
          cases hpe : processEntryVal kv with
          | ok w => exact ⟨w, rfl⟩
          | error e => rw [hpe] at hok; simp [isOkE] at hok
        have hsv : storedValFor k kv.2 = .ok w := by
          have hrw : processEntryVal kv = storedValFor (actualKey kv.1) kv.2 := rfl
          rw [hrw, hc] at hw
          exact hw
        have hso : storedOf kv = w := by
          simp [storedOf, hw]
        simp only [List.lookup, hso]
        have hkk : (k == actualKey kv.1) = true := by
          exact beq_iff_eq.mpr hc.symm
        simp [hkk, hsv, Except.toOption]
      · simp only [if_neg hc]
        have hkk : (k == actualKey kv.1) = false := by
          exact beq_eq_false_iff_ne.mpr (fun he => hc he.symm)
        simp [List.lookup, hkk]

lemma processInfo_ok_eq (info : List (String × PyVal))
    (h : ∀ kv ∈ info, isOkE (processEntryVal kv) = true) :
    processInfo info = .ok (processedAttrs info) := by
  unfold processInfo processedAttrs
  rw [foldlM_processEntry_ok info [] h]
  simp

lemma allOk_of_buildZPFG_ok {info : List (String × PyVal)} {z : ZPFG}
    (hz : buildZPFG info = .ok z) :
    ∀ kv ∈ info, isOkE (processEntryVal kv) = true := by
  intro kv hm
  by_contra hbad
  have hbad2 : isOkE (processEntryVal kv) = false := by
    cases hb : isOkE (processEntryVal kv)
    · rfl
    · exact absurd hb hbad
  have herr : isOkE (processInfo info) = false :=
    foldlM_processEntry_err info [] kv hm hbad2
  cases hpi : processInfo info with
  | ok attrs => rw [hpi] at herr; simp [isOkE] at herr
  | error e =>
    unfold buildZPFG at hz
    rw [hpi] at hz
    exact Except.noConfusion hz

lemma storedValFor_street (v : PyVal) : storedValFor "street" v = .ok v := rfl

lemma storedValFor_price_null : storedValFor "price" .vNull = .ok .vNull := rfl

lemma storedValFor_bed_null : storedValFor "bed" .vNull = .ok .vNull := rfl

lemma neighborhoodSetOf_ok_of_lookup {attrs : List (String × PyVal)} {v : PyVal}
    (h : List.lookup "neighborhood" attrs = some v) :
    ∃ ns, neighborhoodSetOf attrs = .ok ns := by
  unfold neighborhoodSetOf
  rw [h]
  cases v with
  | vNull => exact ⟨_, rfl⟩
  | vInt n => exact ⟨_, rfl⟩
  | vFloat q => exact ⟨_, rfl⟩
  | vStr s => exact ⟨_, rfl⟩
  | vList xs => exact ⟨_, rfl⟩

lemma lookup_processed_entryOk {info : List (String × PyVal)} {k : String} {v : PyVal}
    (hall : ∀ kv ∈ info, isOkE (processEntryVal kv) = true)
    (hlr : lastRaw info k = some v) :
    ∃ w, storedValFor k v = .ok w ∧
      List.lookup k (processedAttrs info) = some w := by
  obtain ⟨kv2, hm2, hk2, hv2⟩ := lastRaw_mem hlr
  have hok : isOkE (processEntryVal kv2) = true := hall kv2 hm2
  obtain ⟨w, hw⟩ : ∃ w, storedValFor k v = .ok w := by
    cases hpe : storedValFor k v with
    | ok w => exact ⟨w, rfl⟩
    | error e =>
      have hbad : processEntryVal kv2 = .error e := by
        unfold processEntryVal
        rw [hk2, hv2, hpe]
      rw [hbad] at hok
      simp [isOkE] at hok
  refine ⟨w, hw, ?_⟩
  rw [lookup_processed info hall k, hlr]
  simp [hw, Except.toOption]

theorem buildZPFG_ok_iff (info : List (String × PyVal)) :
    isOkE (buildZPFG info) = true ↔
      ((∀ kv ∈ info, isOkE (processEntryVal kv) = true) ∧
        (lastRaw info "neighborhood").isSome = true ∧
        (∃ s, lastRaw info "street" = some (.vStr s))) := by
  constructor
  · intro hok
    cases hb : buildZPFG info with
    | error e => rw [hb] at hok; simp [isOkE] at hok
    | ok z =>
      have hall := allOk_of_buildZPFG_ok hb
      refine ⟨hall, ?_, ?_⟩
      · cases hlr : lastRaw info "neighborhood" with
        | some v => rfl
        | none =>
          have hlk : List.lookup "neighborhood" (processedAttrs info) = none := by
            rw [lookup_processed info hall, hlr]
          have hns : neighborhoodSetOf (processedAttrs info) = .error .attributeError := by
            unfold neighborhoodSetOf
            rw [hlk]
          unfold buildZPFG at hb
          rw [processInfo_ok_eq info hall] at hb
          simp only [hns] at hb
          exact Except.noConfusion hb
      · cases hlr : lastRaw info "street" with
        | none =>
          exfalso
          have hlk : List.lookup "street" (processedAttrs info) = none := by
            rw [lookup_processed info hall, hlr]
          unfold buildZPFG at hb
          rw [processInfo_ok_eq info hall] at hb
          obtain ⟨ns, hns⟩ :
              ∃ ns, neighborhoodSetOf (processedAttrs info) = .ok ns := by
            cases hns : neighborhoodSetOf (processedAttrs info) with
            | error e =>
              simp only [hns] at hb
              exact Except.noConfusion hb
            | ok ns => exact ⟨ns, rfl⟩
          simp only [hns, hlk] at hb
          exact Except.noConfusion hb
        | some v =>
          obtain ⟨w, hw, hlk⟩ := lookup_processed_entryOk hall hlr
          have hwv : w = v := by
            rw [storedValFor_street] at hw
            exact (Except.ok.inj hw).symm
          rw [hwv] at hlk
          unfold buildZPFG at hb
          rw [processInfo_ok_eq info hall] at hb
          obtain ⟨ns, hns⟩ :
              ∃ ns, neighborhoodSetOf (processedAttrs info) = .ok ns := by
            cases hns : neighborhoodSetOf (processedAttrs info) with
            | error e =>
              simp only [hns] at hb
              exact Except.noConfusion hb
            | ok ns => exact ⟨ns, rfl⟩
          simp only [hns, hlk] at hb
          cases v with
          | vStr s2 => exact ⟨s2, rfl⟩
          | vNull => exact absurd hb (Except.noConfusion)
          | vInt n => exact absurd hb (Except.noConfusion)
          | vFloat q => exact absurd hb (Except.noConfusion)
          | vList xs => exact absurd hb (Except.noConfusion)
  · rintro ⟨hall, hns, ⟨s, hst⟩⟩
    obtain ⟨v, hlr⟩ := Option.isSome_iff_exists.mp hns
    obtain ⟨w, hw, hlk⟩ := lookup_processed_entryOk hall hlr
    obtain ⟨ns, hnsok⟩ := neighborhoodSetOf_ok_of_lookup hlk
    obtain ⟨w2, hw2, hlk2⟩ := lookup_processed_entryOk hall hst
    have hw2v : w2 = .vStr s := by
      rw [storedValFor_street] at hw2
      exact (Except.ok.inj hw2).symm
    rw [hw2v] at hlk2
    unfold buildZPFG
    rw [processInfo_ok_eq info hall]
    simp only [hnsok, hlk2]
    rfl

lemma buildZPFG_fields {info : List (String × PyVal)} {z : ZPFG}
    (hz : buildZPFG info = .ok z) :
    z.price = getOptRat (processedAttrs info) "price" ∧
    z.bed = getOptRat (processedAttrs info) "bed" := by
  have hall := allOk_of_buildZPFG_ok hz
  unfold buildZPFG at hz
  rw [processInfo_ok_eq info hall] at hz
  cases hns : neighborhoodSetOf (processedAttrs info) with
  | error e =>
    simp only [hns] at hz
    exact Except.noConfusion hz
  | ok ns =>
    simp only [hns] at hz
    cases hlk : List.lookup "street" (processedAttrs info) with
    | none =>
      simp only [hlk] at hz
      exact Except.noConfusion hz
    | some v =>
      cases v with
      | vStr s =>
        simp only [hlk] at hz
        have hzz := Except.ok.inj hz
        rw [← hzz]
        exact ⟨rfl, rfl⟩
      | vNull =>
        simp only [hlk] at hz
        exact Except.noConfusion hz
      | vInt n =>
        simp only [hlk] at hz
        exact Except.noConfusion hz
      | vFloat q =>
        simp only [hlk] at hz
        exact Except.noConfusion hz
      | vList xs =>
        simp only [hlk] at hz
        exact Except.noConfusion hz

lemma buildZPFG_null_price {info : List (String × PyVal)} {z : ZPFG}
    (hz : buildZPFG info = .ok z)
    (hn : lastRaw info "price" = some .vNull) : z.price = none := by
  have hall := allOk_of_buildZPFG_ok hz
  have hlk : List.lookup "price" (processedAttrs info) = some .vNull := by
    rw [lookup_processed info hall]
    simp only [hn, storedValFor_price_null]
    rfl
  rw [(buildZPFG_fields hz).1]
  unfold getOptRat
  rw [hlk]

lemma buildZPFG_null_bed {info : List (String × PyVal)} {z : ZPFG}
    (hz : buildZPFG info = .ok z)
    (hn : lastRaw info "bed" = some .vNull) : z.bed = none := by
  have hall := allOk_of_buildZPFG_ok hz
  have hlk : List.lookup "bed" (processedAttrs info) = some .vNull := by
    rw [lookup_processed info hall]
    simp only [hn, storedValFor_bed_null]
    rfl
  rw [(buildZPFG_fields hz).2]
  unfold getOptRat
  rw [hlk]

/-- A raw mapping with a valid id but an uncoercible price. -/
def infoBadPrice : List (String × PyVal) :=
  [("p.id", .vStr "7"), ("p.price", .vStr "twelve"),
    ("p.street", .vStr "Main St 5"), ("p.neighborhood", .vNull)]

/-- A raw mapping with no id at all. -/
def infoNoId : List (String × PyVal) :=
  [("p.price", .vInt 100), ("p.street", .vStr "Main St 5"),
    ("p.neighborhood", .vNull)]

/-- C4 counterexample: an uncoercible price aborts construction even though
the id is present and coercible (the claim says only the id can be fatal and
other coercion failures are stored as absent), and a mapping with no id at
all still constructs successfully (the claim says a missing id is fatal). -/
theorem claimC4_counterexample :
    buildZPFG infoBadPrice = .error .valueError ∧
    buildZPFG infoNoId =
      .ok ⟨none, some 100, none, none, none, "Main St 5", "Main St ", ∅⟩ :=
  ⟨rfl, rfl⟩

/-- C4 (amended): construction succeeds exactly when every entry passes its
per-entry step (typed attributes: null or coercible; a string-typed
neighborhood: parseable), the mapping carries a neighborhood key, and the
last street value is a string; the id plays no special role, so a missing id
is not an error, an uncoercible value of any typed attribute (id included) is
fatal, and a null typed attribute is stored as the absent value (shown for
price and bed). -/
theorem claimC4_theorem :
    (∀ info : List (String × PyVal),
      isOkE (buildZPFG info) = true ↔
        ((∀ kv ∈ info, isOkE (processEntryVal kv) = true) ∧
          (lastRaw info "neighborhood").isSome = true ∧
          (∃ s, lastRaw info "street" = some (.vStr s)))) ∧
    (∀ (info : List (String × PyVal)) (z : ZPFG), buildZPFG info = .ok z →
      (lastRaw info "price" = some .vNull → z.price = none) ∧
      (lastRaw info "bed" = some .vNull → z.bed = none)) :=
  ⟨buildZPFG_ok_iff,
    fun _ _ hz => ⟨buildZPFG_null_price hz, buildZPFG_null_bed hz⟩⟩

/-- A raw mapping with null price and bed. -/
def infoNull : List (String × PyVal) :=
  [("id", .vInt 1), ("price", .vNull), ("bed", .vNull),
    ("street", .vStr "A"), ("neighborhood", .vNull)]

/-- The record `infoNull` constructs. -/
def zNull : ZPFG :=
  ⟨some 1, none, none, none, none, "A", "A", ∅⟩

/-- C4 witness: the amended theorem applied to a concrete mapping with null
typed attributes. -/
theorem claimC4_witness :
    isOkE (buildZPFG infoNull) = true ∧ zNull.price = none ∧ zNull.bed = none :=
  ⟨(claimC4_theorem.1 infoNull).mpr ⟨by decide, by decide, ⟨"A", by decide⟩⟩,
    (claimC4_theorem.2 infoNull zNull rfl).1 rfl,
    (claimC4_theorem.2 infoNull zNull rfl).2 rfl⟩

/-- The neighborhood-normalization pipeline on its own: the `__init__` loop
followed by the `neighborhood_set` computation. -/
def neighborhoodOf (info : List (String × PyVal)) : Except PyErr (Finset String) :=
  match processInfo info with
  | .error e => .error e
  | .ok attrs => neighborhoodSetOf attrs

/-- C5 counterexample: a single plain (non-serialized) neighborhood string is
not accepted — `ast.literal_eval("Downtown")` raises, so construction errors
instead of producing a set, contradicting "failure to parse ... yields an
empty set (never an error)". -/
theorem claimC5_counterexample :
    neighborhoodOf [("neighborhood", .vStr "Downtown")] = .error .valueError :=
  rfl

/-- C5 (amended): neighborhood normalization accepts a collection of strings
(producing the set of its elements) or a string-typed serialized list (parsed
back into its element sequence before set construction); a null (or other
non-iterable) value yields the empty set without error; but a string that
fails to parse as a serialized list raises `ValueError`, and a mapping with
no neighborhood key raises `AttributeError`. -/
theorem claimC5_theorem :
    (∀ xs : List String,
      neighborhoodOf [("neighborhood", .vList xs)] = .ok xs.toFinset) ∧
    (∀ (s : String) (xs : List String), pyLiteralEvalList? s = some xs →
      neighborhoodOf [("neighborhood", .vStr s)] = .ok xs.toFinset) ∧
    (neighborhoodOf [("neighborhood", .vNull)] = .ok ∅) ∧
    (∀ s : String, pyLiteralEvalList? s = none →
      neighborhoodOf [("neighborhood", .vStr s)] = .error .valueError) ∧
    (neighborhoodOf [] = .error .attributeError) := by
  refine ⟨fun xs => rfl, ?_, rfl, ?_, rfl⟩
  · intro s xs h
    have h3 : processEntryVal ("neighborhood", .vStr s) = .ok (.vList xs) := by
      have h2 : processEntryVal ("neighborhood", .vStr s) =
          match pyLiteralEvalList? s with
          | some xs2 => Except.ok (.vList xs2)
          | none => Except.error PyErr.valueError := rfl
      rw [h2, h]
    have h5 : processInfo [("neighborhood", .vStr s)] =
        .ok [("neighborhood", .vList xs)] := by
      unfold processInfo
      rw [List.foldlM_cons]
      have h4 : processEntry [] ("neighborhood", .vStr s) =
          .ok [("neighborhood", .vList xs)] := by
        unfold processEntry
        rw [h3]
        rfl
      rw [h4]
      rfl
    unfold neighborhoodOf
    rw [h5]
    rfl
  · intro s h
    have h3 : processEntryVal ("neighborhood", .vStr s) = .error .valueError := by
      have h2 : processEntryVal ("neighborhood", .vStr s) =
          match pyLiteralEvalList? s with
          | some xs2 => Except.ok (.vList xs2)
          | none => Except.error PyErr.valueError := rfl
      rw [h2, h]
    have h5 : processInfo [("neighborhood", .vStr s)] = .error .valueError := by
      unfold processInfo
      rw [List.foldlM_cons]
      have h4 : processEntry [] ("neighborhood", .vStr s) = .error .valueError := by
        unfold processEntry
        rw [h3]
        rfl
      rw [h4]
      rfl
    unfold neighborhoodOf
    rw [h5]

/-- C5 witness: the amended theorem applied to the serialized list
`"['San Diego']"`. -/
theorem claimC5_witness :
    neighborhoodOf [("neighborhood", .vStr "['San Diego']")] =
      .ok (["San Diego"] : List String).toFinset :=
  claimC5_theorem.2.1 "['San Diego']" ["San Diego"] (by decide)
